import Mathlib

/-!
Verification of the `dnsoverhttps` Go package (file `https.go`).

The development shallowly embeds the package's three operations —
`NewRequestWithHook`, `Exchange`, `ReadResponseWithHook` — together with
executable models of the external collaborators they call (the `dnscodec`
DNS codec, the `iox` bounded copy, and the relevant parts of `net/http`).
Go's `(value, error)` multiple returns are modelled as records of `Option`
fields, so that "returns a nil response together with an error" is a
provable fact rather than a typing artifact.  Side effects that the claims
talk about — hook invocations and closing the HTTP response body — are
made explicit as result fields recording the snapshots passed to the hook
and the number of times the body was closed.
-/

namespace Dnsoverhttps

/-- Raw wire bytes: Go `[]byte`, modelled as a list of byte values. -/
abbrev Bytes := List Nat

/-- The two ways a Go context reports that it has ended:
`context.Canceled` and `context.DeadlineExceeded`. -/
inductive CtxErr where
  | canceled
  | deadlineExceeded
  deriving DecidableEq

/-- Model of a `context.Context` as observed by this code: the only operation
performed on it is `ctx.Err()`, which is `none` while the context is alive and
the cancellation/deadline error once the context has ended. -/
structure Context where
  err : Option CtxErr
  deriving DecidableEq

/-- Go `error` values observable from this package.  `serverMisbehaving` and
`invalidResponse` model `dnscodec.ErrServerMisbehaving` and
`dnscodec.ErrInvalidResponse`; `codec` models opaque errors from the codec's
query building and packing; `urlError` models the error of
`http.NewRequestWithContext` on a malformed URL; `readFailure` models the
error of the bounded copy when the underlying body read fails; `fromCtx` is a
context error surfaced as an error value; `transport` models an arbitrary
error returned by the round-tripper, tagged so identity preservation is
expressible. -/
inductive Err where
  | serverMisbehaving
  | invalidResponse
  | codec (tag : Nat)
  | urlError (tag : Nat)
  | readFailure
  | fromCtx (e : CtxErr)
  | transport (tag : Nat)
  deriving DecidableEq

deriving instance DecidableEq for Except

/-! ### Model of the external `dnscodec` collaborator

`dnscodec` is an external library (not part of this repository); the
definitions below model its observable contract as the spec and the
package's tests exercise it: a query descriptor with a flags bitset, an
ID and a max-response-size class; `NewMsg` materializes a wire message
carrying exactly the descriptor's shaping; `Pack`/`Unpack` are fallible
serialization; `ParseResponse` validates a response message against the
query message and classifies a mismatch as `ErrInvalidResponse`. -/

/-- Model constant for the `dnscodec` flag requesting block-length padding
(a distinct bit of the flags bitset). -/
def QueryFlagBlockLengthPadding : Nat := 1

/-- Model constant for the `dnscodec` flag requesting DNSSEC-OK
(a distinct bit of the flags bitset). -/
def QueryFlagDNSSec : Nat := 2

/-- Model constant for the UDP-sized max-response-size class. -/
def QueryMaxResponseSizeUDP : Nat := 1232

/-- Model constant for the TCP-sized max-response-size class; also the body
read ceiling in `ReadResponseWithHook`. -/
def QueryMaxResponseSizeTCP : Nat := 65535

/-- Model of `dnscodec.Query`: the caller-owned query descriptor. -/
structure Query where
  name : String
  qtype : Nat
  flags : Nat
  id : Nat
  maxSize : Nat
  deriving DecidableEq

/-- Model of `dnscodec.Query.Clone`: it returns an independent deep copy of the
descriptor; on values this is the identity, and the embedding of the package
functions applies all shaping updates to the clone binding only, mirroring
the Go code's rebinding of its local pointer to the clone. -/
def Query.Clone (q : Query) : Query := q

/-- Model of `dns.Msg` as observed here: the query/response wire message with the
fields the shaping and validation touch. -/
structure Msg where
  id : Nat
  dnssecOK : Bool
  paddingRequested : Bool
  udpSize : Nat
  qname : String
  qtype : Nat
  deriving DecidableEq

/-- True when some character of the name is an ASCII control character; the
codec model rejects such names when materializing a message (the tests
exercise this with the name `"\t"`). -/
def nameHasControlChar (s : String) : Bool :=
  s.data.any (fun c => decide (c.toNat < 32))

/-- True when every dot-separated label of the name has length at most 63;
`acc` is the length of the label read so far.  The codec model rejects
over-length labels when packing (the tests exercise this with a 64-`a`
label). -/
def labelsOK : List Char → Nat → Bool
  | [], acc => decide (acc ≤ 63)
  | c :: rest, acc =>
      if c = '.' then decide (acc ≤ 63) && labelsOK rest 0
      else labelsOK rest (acc + 1)

/-- Model of `dnscodec.Query.NewMsg`: materialize a wire message from the descriptor.
The message carries the descriptor's ID, its DNSSEC-OK and padding flag bits,
its max-size class as the EDNS0 UDP size, and its question.  Fails on a name
containing control characters. -/
def Query.NewMsg (q : Query) : Except Err Msg :=
  if nameHasControlChar q.name then .error (.codec 0)
  else .ok { id := q.id
             dnssecOK := q.flags.testBit 1
             paddingRequested := q.flags.testBit 0
             udpSize := q.maxSize
             qname := q.name
             qtype := q.qtype }

/-- Byte encoding a message: header-like prefix followed by the question
name's characters.  The claims depend only on which bytes are handed where,
not on the encoding's details. -/
def encodeMsg (m : Msg) : Bytes :=
  [m.id / 256 % 256, m.id % 256,
   (cond m.dnssecOK 1 0) + (cond m.paddingRequested 2 0),
   m.udpSize / 256 % 256, m.udpSize % 256, m.qtype % 256]
    ++ m.qname.data.map Char.toNat

/-- Model of `dns.Msg.Pack`: serialize a message to bytes; fails when some label of
the question name is longer than 63 characters. -/
def Msg.Pack (m : Msg) : Except Err Bytes :=
  if labelsOK m.qname.data 0 then .ok (encodeMsg m)
  else .error (.codec 1)

/-- Model of `dns.Msg.Unpack`: deserialize bytes into a message; fails when the input
is shorter than a DNS header.  The decoded fields are determined by the
input bytes; only the ID participates in the validation model. -/
def Msg.Unpack (bs : Bytes) : Option Msg :=
  if bs.length < 12 then none
  else some { id := (bs.getD 0 0) % 256 * 256 + (bs.getD 1 0) % 256
              dnssecOK := false
              paddingRequested := false
              udpSize := 0
              qname := ""
              qtype := 0 }

/-- Model of `dnscodec.Response`: the opaque parsed response returned on success. -/
structure Response where
  msg : Msg
  deriving DecidableEq

/-- Model of `dnscodec.ParseResponse`: semantic validation of the parsed response
message against the issued query message; a mismatch of ID or question is
classified as `ErrInvalidResponse`. -/
def ParseResponse (queryMsg respMsg : Msg) : Except Err Response :=
  if respMsg.id = queryMsg.id ∧ respMsg.qname = queryMsg.qname
      ∧ respMsg.qtype = queryMsg.qtype then
    .ok { msg := respMsg }
  else .error .invalidResponse

/-! ### Model of the `net/http` and `iox` collaborators -/

/-- Model of `*http.Request` as this package constructs it: method, URL, the body
bytes, the headers, and the context stored by `http.NewRequestWithContext`. -/
structure HTTPRequest where
  method : String
  url : String
  body : Bytes
  headers : List (String × String)
  ctx : Context
  deriving DecidableEq

/-- The HTTP response body as a byte stream: it yields `bytes` and then
either clean end-of-stream (`readErr = none`) or a read error. -/
structure HTTPBody where
  bytes : Bytes
  readErr : Option Unit
  deriving DecidableEq

/-- Model of `*http.Response` as this package observes it: status code, headers,
and the body stream. -/
structure HTTPResponse where
  statusCode : Nat
  headers : List (String × String)
  body : HTTPBody
  deriving DecidableEq

/-- ASCII lowercase of a string, for case-insensitive header keys. -/
def lowerAscii (s : String) : String := s.map Char.toLower

/-- Model of `http.Header.Get`: case-insensitive lookup of a header key, returning
the first matching value or the empty string.  The value itself is not
normalized. -/
def headerGet (hs : List (String × String)) (key : String) : String :=
  match hs.find? (fun p => lowerAscii p.1 == lowerAscii key) with
  | some p => p.2
  | none => ""

/-- Model of `http.NewRequestWithContext` URL validation: the URL is rejected
when it contains an ASCII control character (the tests exercise this with the
URL `"\t"`). -/
def urlInvalid (url : String) : Bool :=
  url.data.any (fun c => decide (c.toNat < 32))

/-- Model of `bytes.Clone`: an independent copy of a byte buffer; on values this is
the identity.  The hook receives this copy, so mutations the hook performs
never reach the transport's own buffer. -/
def bytesClone (b : Bytes) : Bytes := b

/-- The composition `iox.CopyContext(ctx, w, iox.LimitReadCloser(body, limit))`
used by `ReadResponseWithHook`: a cancellation-aware, size-bounded read of the
body.  If the context has ended the copy fails with the context's error; the
limit reader delivers at most `limit` bytes and reports clean end-of-stream
once the limit is reached, so the underlying stream's read error is only
observed when the stream ends before the limit; otherwise the copy yields the
first `limit` bytes (all of them when the body is smaller). -/
def copyBody (ctx : Context) (b : HTTPBody) (limit : Nat) : Except Err Bytes :=
  match ctx.err with
  | some e => .error (.fromCtx e)
  | none =>
      if b.readErr.isSome && decide (b.bytes.length < limit) then
        .error .readFailure
      else
        .ok (b.bytes.take limit)

/-! ### The package's own operations (embedded from `https.go`) -/

/-- Lines 67–70 of `https.go`: the deterministic DoH shaping applied to the
clone of the caller's descriptor — request padding and DNSSEC-OK, zero the
ID, and use the TCP-sized max-response-size class. -/
def shapeQuery (query : Query) : Query :=
  let query := query.Clone
  let query := { query with
                   flags := query.flags |||
                     (QueryFlagBlockLengthPadding ||| QueryFlagDNSSec) }
  let query := { query with id := 0 }
  { query with maxSize := QueryMaxResponseSizeTCP }

/-- The result of `NewRequestWithHook`: Go's `(*http.Request, *dns.Msg, error)`
triple, plus the list of byte snapshots passed to the observation hook (in
call order). -/
structure NewRequestResult where
  httpReq : Option HTTPRequest
  queryMsg : Option Msg
  err : Option Err
  hookCalls : List Bytes
  deriving DecidableEq

/-- Embedding of `NewRequestWithHook` from `https.go`: clone and shape the query,
materialize and pack the wire message, hand a copy of the raw bytes to the
hook when one is set, then construct the HTTP POST request carrying the raw
bytes with the `application/dns-message` content type. -/
def NewRequestWithHook (ctx : Context) (query : Query) (URL : String)
    (observeHook : Option (Bytes → Bytes)) : NewRequestResult :=
  match (shapeQuery query).NewMsg with
  | .error e => { httpReq := none, queryMsg := none, err := some e, hookCalls := [] }
  | .ok queryMsg =>
      match queryMsg.Pack with
      | .error e => { httpReq := none, queryMsg := none, err := some e, hookCalls := [] }
      | .ok rawQuery =>
          let hookCalls : List Bytes :=
            match observeHook with
            | some _ => [bytesClone rawQuery]
            | none => []
          if urlInvalid URL then
            { httpReq := none, queryMsg := none, err := some (.urlError 0),
              hookCalls := hookCalls }
          else
            { httpReq := some { method := "POST", url := URL, body := rawQuery,
                                headers := [("Content-Type", "application/dns-message")],
                                ctx := ctx },
              queryMsg := some queryMsg, err := none, hookCalls := hookCalls }

/-- Embedding of `NewRequest` from `https.go`: `NewRequestWithHook` with a nil hook. -/
def NewRequest (ctx : Context) (query : Query) (URL : String) : NewRequestResult :=
  NewRequestWithHook ctx query URL none

/-- The result of `ReadResponseWithHook`: Go's `(*dnscodec.Response, error)`
pair, plus the snapshots passed to the hook and the number of times the HTTP
response body was closed. -/
structure ReadResult where
  resp : Option Response
  err : Option Err
  hookCalls : List Bytes
  closes : Nat
  deriving DecidableEq

/-- Embedding of `ReadResponseWithHook` from `https.go`: close the body on every exit path
(the deferred close contributes `closes := 1` to each branch), gate on status
code 200 and content type `application/dns-message`, read the body through the
bounded cancellation-aware copy (surfacing the context's error verbatim when
the context has ended, `ErrServerMisbehaving` otherwise), hand a copy of the
raw bytes to the hook when one is set, unpack them, and delegate semantic
validation to `ParseResponse`. -/
def ReadResponseWithHook (ctx : Context) (httpResp : HTTPResponse) (queryMsg : Msg)
    (observeHook : Option (Bytes → Bytes)) : ReadResult :=
  if httpResp.statusCode ≠ 200 then
    { resp := none, err := some .serverMisbehaving, hookCalls := [], closes := 1 }
  else if headerGet httpResp.headers "content-type" ≠ "application/dns-message" then
    { resp := none, err := some .serverMisbehaving, hookCalls := [], closes := 1 }
  else
    match copyBody ctx httpResp.body QueryMaxResponseSizeTCP with
    | .error _ =>
        match ctx.err with
        | some ce => { resp := none, err := some (.fromCtx ce), hookCalls := [], closes := 1 }
        | none => { resp := none, err := some .serverMisbehaving, hookCalls := [], closes := 1 }
    | .ok rawResp =>
        let hookCalls : List Bytes :=
          match observeHook with
          | some _ => [bytesClone rawResp]
          | none => []
        match Msg.Unpack rawResp with
        | none =>
            { resp := none, err := some .serverMisbehaving,
              hookCalls := hookCalls, closes := 1 }
        | some respMsg =>
            match ParseResponse queryMsg respMsg with
            | .error e =>
                { resp := none, err := some e, hookCalls := hookCalls, closes := 1 }
            | .ok resp =>
                { resp := some resp, err := none, hookCalls := hookCalls, closes := 1 }

/-- Embedding of `ReadResponse` from `https.go`: `ReadResponseWithHook` with a nil hook. -/
def ReadResponse (ctx : Context) (httpResp : HTTPResponse) (queryMsg : Msg) : ReadResult :=
  ReadResponseWithHook ctx httpResp queryMsg none

/-- The round-tripper capability `Client.Do`: one HTTP request in, one HTTP
response or an error out. -/
abbrev Client := HTTPRequest → Except Err HTTPResponse

/-- The result of `Transport.Exchange`: Go's `(*dnscodec.Response, error)`
pair, plus the caller-visible value of the query descriptor after the call,
the snapshots passed to each hook, and the number of times the HTTP response
body was closed. -/
structure ExchangeResult where
  resp : Option Response
  err : Option Err
  queryAfter : Query
  hookQueryCalls : List Bytes
  hookRespCalls : List Bytes
  bodyCloses : Nat
  deriving DecidableEq

/-- Embedding of `Transport.Exchange` from `https.go`: build the request with the raw-query
hook, perform the round trip, and read the response with the raw-response
hook, propagating each stage's error unchanged.  The code never writes
through the caller's descriptor pointer (every shaping write follows the
rebinding to the clone), so the caller-visible descriptor after the call is
the input value on every path. -/
def Exchange (client : Client) (URL : String)
    (observeRawQuery observeRawResponse : Option (Bytes → Bytes))
    (ctx : Context) (query : Query) : ExchangeResult :=
  let nr := NewRequestWithHook ctx query URL observeRawQuery
  match nr.err with
  | some e =>
      { resp := none, err := some e, queryAfter := query,
        hookQueryCalls := nr.hookCalls, hookRespCalls := [], bodyCloses := 0 }
  | none =>
      match nr.httpReq, nr.queryMsg with
      | some httpReq, some queryMsg =>
          match client httpReq with
          | .error e =>
              { resp := none, err := some e, queryAfter := query,
                hookQueryCalls := nr.hookCalls, hookRespCalls := [], bodyCloses := 0 }
          | .ok httpResp =>
              let rr := ReadResponseWithHook ctx httpResp queryMsg observeRawResponse
              { resp := rr.resp, err := rr.err, queryAfter := query,
                hookQueryCalls := nr.hookCalls, hookRespCalls := rr.hookCalls,
                bodyCloses := rr.closes }
      | _, _ =>
          { resp := none, err := none, queryAfter := query,
            hookQueryCalls := nr.hookCalls, hookRespCalls := [], bodyCloses := 0 }

/-! ### Concrete sample values used by witness theorems -/

/-- A live (not yet ended) context. -/
def ctxLive : Context := { err := none }

/-- A context whose cancellation has fired. -/
def ctxCancelled : Context := { err := some .canceled }

/-- A caller descriptor with nonzero ID, UDP max-size class and only the
DNSSEC flag set, as in the package's mutation test. -/
def sampleQuery : Query :=
  { name := "dns.google", qtype := 1, flags := QueryFlagDNSSec,
    id := 1234, maxSize := QueryMaxResponseSizeUDP }

/-- A well-formed destination URL. -/
def sampleURL : String := "https://example.com/dns-query"

/-- The wire message the shaping produces from `sampleQuery`. -/
def sampleMsg : Msg :=
  { id := 0, dnssecOK := true, paddingRequested := true,
    udpSize := QueryMaxResponseSizeTCP, qname := "dns.google", qtype := 1 }

/-- The serialized form of `sampleMsg`. -/
def sampleRawQuery : Bytes := encodeMsg sampleMsg

/-- The HTTP request `NewRequestWithHook` builds from `sampleQuery`. -/
def sampleRequest : HTTPRequest :=
  { method := "POST", url := sampleURL, body := sampleRawQuery,
    headers := [("Content-Type", "application/dns-message")], ctx := ctxLive }

/-- An HTTP response with teapot status and otherwise correct shape. -/
def teapotResponse : HTTPResponse :=
  { statusCode := 418,
    headers := [("Content-Type", "application/dns-message")],
    body := { bytes := [], readErr := none } }

/-- A round-tripper that answers every request with `teapotResponse`. -/
def teapotClient : Client := fun _ => .ok teapotResponse

/-- An HTTP response passing the admission gate, with a header-sized body. -/
def okResponse : HTTPResponse :=
  { statusCode := 200,
    headers := [("Content-Type", "application/dns-message")],
    body := { bytes := [0, 0, 0, 0, 0, 0, 0, 0, 0, 0, 0, 0], readErr := none } }

/-- A hook that flips every byte of the buffer it receives, as the package's
hook tests do to check they were handed a copy. -/
def mutHook : Bytes → Bytes := fun b => b.map (fun x => 255 - x)

/-- A hook that leaves its buffer unchanged. -/
def idHook : Bytes → Bytes := fun b => b

/-! ### Helper lemmas -/

/-- The shaped clone zeroes the ID. -/
theorem shapeQuery_id (q : Query) : (shapeQuery q).id = 0 := rfl

/-- The shaped clone uses the TCP-sized max-response-size class. -/
theorem shapeQuery_maxSize (q : Query) :
    (shapeQuery q).maxSize = QueryMaxResponseSizeTCP := rfl

/-- The shaped clone has the padding-request bit set. -/
theorem shapeQuery_testBit_zero (q : Query) :
    (shapeQuery q).flags.testBit 0 = true := by
  have h3 : Nat.testBit 3 0 = true := by decide
  simp [shapeQuery, Query.Clone, QueryFlagBlockLengthPadding,
    QueryFlagDNSSec, Nat.testBit_or, h3]

/-- The shaped clone has the DNSSEC-OK bit set. -/
theorem shapeQuery_testBit_one (q : Query) :
    (shapeQuery q).flags.testBit 1 = true := by
  have h3 : Nat.testBit 3 1 = true := by decide
  simp [shapeQuery, Query.Clone, QueryFlagBlockLengthPadding,
    QueryFlagDNSSec, Nat.testBit_or, h3]

/-- When `NewRequestWithHook` reports no error, it returned both a request
and a wire message. -/
theorem newRequestWithHook_ok_shape (ctx : Context) (query : Query) (URL : String)
    (hook : Option (Bytes → Bytes))
    (h : (NewRequestWithHook ctx query URL hook).err = none) :
    ∃ req msg, (NewRequestWithHook ctx query URL hook).httpReq = some req ∧
      (NewRequestWithHook ctx query URL hook).queryMsg = some msg := by
  unfold NewRequestWithHook at *
  cases hm : (shapeQuery query).NewMsg with
  | error e => rw [hm] at h; simp at h
  | ok qm =>
      rw [hm] at h
      dsimp only at h ⊢
      cases hp : qm.Pack with
      | error e => rw [hp] at h; simp at h
      | ok raw =>
          rw [hp] at h
          dsimp only at h ⊢
          by_cases hu : urlInvalid URL
          · simp [hu] at h
          · simp [hu]

/-- In every branch of `ReadResponseWithHook`, at least one of the response
and the error is nil: a produced response comes with a nil error and an
error comes with a nil response. -/
theorem readResponseWithHook_resp_err (ctx : Context) (httpResp : HTTPResponse)
    (queryMsg : Msg) (hook : Option (Bytes → Bytes)) :
    (ReadResponseWithHook ctx httpResp queryMsg hook).resp = none ∨
    (ReadResponseWithHook ctx httpResp queryMsg hook).err = none := by
  unfold ReadResponseWithHook
  repeat' first
  | exact Or.inl rfl
  | exact Or.inr rfl
  | (dsimp only; split)
  | split

/-- When `ReadResponseWithHook` reports an error, the response is nil. -/
theorem readResponseWithHook_err_resp_none (ctx : Context) (httpResp : HTTPResponse)
    (queryMsg : Msg) (hook : Option (Bytes → Bytes)) (e : Err)
    (h : (ReadResponseWithHook ctx httpResp queryMsg hook).err = some e) :
    (ReadResponseWithHook ctx httpResp queryMsg hook).resp = none := by
  cases readResponseWithHook_resp_err ctx httpResp queryMsg hook with
  | inl hr => exact hr
  | inr he => rw [he] at h; simp at h

/-! ### Claim theorems -/

/-- C1: for every query descriptor, the wire message produced by request
building has ID 0, the DNSSEC-OK flag set, response-length padding
requested, and the TCP-sized maximum-response-size class, regardless of the
ID, flags and max-size the caller's descriptor specified; and the HTTP
request body is exactly that message's serialization, so the query Exchange
sends carries the same shaping. -/
theorem newRequest_shapes_wire_message (ctx : Context) (query : Query)
    (URL : String) (hook : Option (Bytes → Bytes)) (m : Msg)
    (h : (NewRequestWithHook ctx query URL hook).queryMsg = some m) :
    m.id = 0 ∧ m.dnssecOK = true ∧ m.paddingRequested = true ∧
    m.udpSize = QueryMaxResponseSizeTCP ∧
    ∀ r, (NewRequestWithHook ctx query URL hook).httpReq = some r →
      Msg.Pack m = .ok r.body := by
  unfold NewRequestWithHook at *
  cases hm : (shapeQuery query).NewMsg with
  | error e => rw [hm] at h; simp at h
  | ok qm =>
      have hqm : qm.id = 0 ∧ qm.dnssecOK = true ∧ qm.paddingRequested = true ∧
          qm.udpSize = QueryMaxResponseSizeTCP := by
        unfold Query.NewMsg at hm
        split at hm
        · simp at hm
        · have := Except.ok.inj hm
          subst this
          exact ⟨shapeQuery_id query, shapeQuery_testBit_one query,
            shapeQuery_testBit_zero query, shapeQuery_maxSize query⟩
      rw [hm] at h
      dsimp only at h ⊢
      cases hp : qm.Pack with
      | error e => rw [hp] at h; simp at h
      | ok raw =>
          rw [hp] at h
          dsimp only at h ⊢
          by_cases hu : urlInvalid URL
          · simp [hu] at h
          · simp only [hu, if_false] at h ⊢
            simp at h
            subst h
            refine ⟨hqm.1, hqm.2.1, hqm.2.2.1, hqm.2.2.2, ?_⟩
            intro r hr
            simp at hr
            rw [← hr, hp]

/-- C1 witness: the shaping applied to `sampleQuery` (nonzero ID, UDP class,
no padding bit) yields the expected wire message and request body. -/
theorem newRequest_shapes_wire_message_witness :
    sampleMsg.id = 0 ∧ sampleMsg.dnssecOK = true ∧
    sampleMsg.paddingRequested = true ∧
    sampleMsg.udpSize = QueryMaxResponseSizeTCP ∧
    Msg.Pack sampleMsg = .ok sampleRequest.body := by
  have h := newRequest_shapes_wire_message ctxLive sampleQuery sampleURL none
    sampleMsg (by decide)
  exact ⟨h.1, h.2.1, h.2.2.1, h.2.2.2.1, h.2.2.2.2 sampleRequest (by decide)⟩

/-- C2: Exchange leaves the caller's descriptor unchanged in every field on
every outcome; all shaping is applied to the independent clone only. -/
theorem exchange_preserves_caller_query (client : Client) (URL : String)
    (hq hr : Option (Bytes → Bytes)) (ctx : Context) (query : Query) :
    (Exchange client URL hq hr ctx query).queryAfter = query := by
  unfold Exchange
  repeat' first
  | rfl
  | (dsimp only; split)
  | split

/-- C8: on every execution of response reading, the HTTP response body is
closed exactly once, on every exit path. -/
theorem readResponse_closes_body_once (ctx : Context) (httpResp : HTTPResponse)
    (queryMsg : Msg) (hook : Option (Bytes → Bytes)) :
    (ReadResponseWithHook ctx httpResp queryMsg hook).closes = 1 := by
  unfold ReadResponseWithHook
  repeat' first
  | rfl
  | (dsimp only; split)
  | split

/-- C9: `NewRequest` and `ReadResponse` coincide with their `WithHook`
variants at a nil hook, and with a nil hook no hook is ever invoked. -/
theorem nil_hook_refinement (ctx : Context) (query : Query) (URL : String)
    (httpResp : HTTPResponse) (queryMsg : Msg) :
    NewRequest ctx query URL = NewRequestWithHook ctx query URL none ∧
    (NewRequestWithHook ctx query URL none).hookCalls = [] ∧
    ReadResponse ctx httpResp queryMsg = ReadResponseWithHook ctx httpResp queryMsg none ∧
    (ReadResponseWithHook ctx httpResp queryMsg none).hookCalls = [] := by
  refine ⟨rfl, ?_, rfl, ?_⟩
  · unfold NewRequestWithHook
    repeat' first
    | rfl
    | (dsimp only; split)
    | split
  · unfold ReadResponseWithHook
    repeat' first
    | rfl
    | (dsimp only; split)
    | split

/-- In every branch of `Exchange`, at least one of the response and the
error is nil. -/
theorem exchange_resp_err (client : Client) (URL : String)
    (hq hr : Option (Bytes → Bytes)) (ctx : Context) (query : Query) :
    (Exchange client URL hq hr ctx query).resp = none ∨
    (Exchange client URL hq hr ctx query).err = none := by
  unfold Exchange
  dsimp only
  split
  · exact Or.inl rfl
  · split
    next req qm hreq hqm =>
      split
      · exact Or.inl rfl
      next httpResp hdo =>
        exact (readResponseWithHook_resp_err ctx httpResp qm hr).imp
          (fun h => h) (fun h => h)
    next => exact Or.inl rfl

/-- C3: response reading yields `ErrServerMisbehaving` exactly when the
HTTP status is not 200, or the content-type header (case-insensitive
lookup) is not exactly `application/dns-message`, or the bounded body read
fails while the context has not ended, or the read bytes fail to unpack
into a wire message; and in every such case no parsed response is
produced. -/
theorem readResponse_serverMisbehaving_iff (ctx : Context)
    (httpResp : HTTPResponse) (queryMsg : Msg) (hook : Option (Bytes → Bytes)) :
    ((ReadResponseWithHook ctx httpResp queryMsg hook).err
        = some .serverMisbehaving ↔
      (httpResp.statusCode ≠ 200 ∨
       headerGet httpResp.headers "content-type" ≠ "application/dns-message" ∨
       ((∃ e, copyBody ctx httpResp.body QueryMaxResponseSizeTCP = .error e) ∧
         ctx.err = none) ∨
       (∃ bs, copyBody ctx httpResp.body QueryMaxResponseSizeTCP = .ok bs ∧
         Msg.Unpack bs = none))) ∧
    ((ReadResponseWithHook ctx httpResp queryMsg hook).err
        = some .serverMisbehaving →
      (ReadResponseWithHook ctx httpResp queryMsg hook).resp = none) := by
  refine ⟨?_, fun h => readResponseWithHook_err_resp_none ctx httpResp queryMsg hook _ h⟩
  unfold ReadResponseWithHook
  by_cases h1 : httpResp.statusCode = 200
  · by_cases h2 : headerGet httpResp.headers "content-type" = "application/dns-message"
    · cases hc : copyBody ctx httpResp.body QueryMaxResponseSizeTCP with
      | error e =>
          cases hctx : ctx.err with
          | some ce => simp [h1, h2, hc, hctx]
          | none => simp [h1, h2, hc, hctx]
      | ok raw =>
          cases hu : Msg.Unpack raw with
          | none => simp [h1, h2, hc, hu]
          | some rm =>
              cases hp : ParseResponse queryMsg rm with
              | error pe =>
                  have hpe : pe = .invalidResponse := by
                    unfold ParseResponse at hp
                    split at hp
                    · simp at hp
                    · exact (Except.error.inj hp).symm
                  subst hpe
                  simp [h1, h2, hc, hu, hp]
              | ok r => simp [h1, h2, hc, hu, hp]
    · simp [h1, h2]
  · simp [h1]

/-- C3 witness: a teapot-status response is classified `ErrServerMisbehaving`. -/
theorem readResponse_serverMisbehaving_iff_witness :
    (ReadResponseWithHook ctxLive teapotResponse sampleMsg none).err
      = some .serverMisbehaving := by
  have h := readResponse_serverMisbehaving_iff ctxLive teapotResponse sampleMsg none
  exact h.1.mpr (Or.inl (by decide))

/-- C10: whenever Exchange reports an error — query shaping/serialization
failure, request construction failure, round-tripper failure, admission
failure, read failure, deserialization failure, or any later failure — the
response it returns is nil. -/
theorem exchange_error_gives_nil_response (client : Client) (URL : String)
    (hq hr : Option (Bytes → Bytes)) (ctx : Context) (query : Query) (e : Err)
    (h : (Exchange client URL hq hr ctx query).err = some e) :
    (Exchange client URL hq hr ctx query).resp = none := by
  cases exchange_resp_err client URL hq hr ctx query with
  | inl h' => exact h'
  | inr h' => rw [h'] at h; simp at h

/-- C10 witness: at the teapot input Exchange errs with a nil response. -/
theorem exchange_error_gives_nil_response_witness :
    (Exchange teapotClient sampleURL none none ctxLive sampleQuery).resp = none :=
  exchange_error_gives_nil_response teapotClient sampleURL none none ctxLive
    sampleQuery .serverMisbehaving (by decide)

/-- A round-tripper that fails every call with a fixed transport error. -/
def failingClient : Client := fun _ => .error (.transport 7)

/-- A round-tripper that fails every call with the cancellation error, as a
context-respecting client does once the context has ended. -/
def cancelClient : Client := fun _ => .error (.fromCtx .canceled)

/-- C4 counterexample: with the ambient context already cancelled, a
round-tripper that still returns a teapot-status response makes Exchange
return `ErrServerMisbehaving` — not the context's cancellation error — so
the claim as stated fails. -/
theorem exchange_cancelled_ctx_counterexample :
    ctxCancelled.err = some CtxErr.canceled ∧
    (Exchange teapotClient sampleURL none none ctxCancelled sampleQuery).err
      = some .serverMisbehaving := ⟨rfl, by decide⟩

/-- C4 (amended): whenever the ambient context has ended, (a) if the
round-tripper surfaces the context's error and request building succeeded,
Exchange returns that error itself, and (b) any failure of response reading
after the admission gate surfaces the context's error itself, which is never
`ErrServerMisbehaving`; admission failures, however, keep their own
classification even when the context has ended. -/
theorem exchange_cancelled_ctx_amended (ctx : Context) (e : CtxErr)
    (client : Client) (URL : String) (hq hr : Option (Bytes → Bytes))
    (query : Query) (hctx : ctx.err = some e) :
    ((∀ req, client req = .error (.fromCtx e)) →
      (NewRequestWithHook ctx query URL hq).err = none →
      (Exchange client URL hq hr ctx query).err = some (.fromCtx e)) ∧
    (∀ (httpResp : HTTPResponse) (queryMsg : Msg) (hook : Option (Bytes → Bytes)),
      httpResp.statusCode = 200 →
      headerGet httpResp.headers "content-type" = "application/dns-message" →
      (ReadResponseWithHook ctx httpResp queryMsg hook).err = some (.fromCtx e) ∧
      Err.fromCtx e ≠ .serverMisbehaving) := by
  constructor
  · intro hcl hok
    obtain ⟨req, m, hreq, hmsg⟩ := newRequestWithHook_ok_shape ctx query URL hq hok
    unfold Exchange
    dsimp only
    simp [hok, hreq, hmsg, hcl req]
  · intro httpResp queryMsg hook h200 hct
    have hcopy : copyBody ctx httpResp.body QueryMaxResponseSizeTCP
        = .error (.fromCtx e) := by
      unfold copyBody; rw [hctx]
    refine ⟨?_, fun hne => Err.noConfusion hne⟩
    unfold ReadResponseWithHook
    simp [h200, hct, hcopy, hctx]

/-- C4 witness: a cancelled context with a context-respecting round-tripper
makes Exchange surface `context.Canceled` itself. -/
theorem exchange_cancelled_ctx_amended_witness :
    (Exchange cancelClient sampleURL none none ctxCancelled sampleQuery).err
      = some (.fromCtx .canceled) := by
  have h := exchange_cancelled_ctx_amended ctxCancelled .canceled cancelClient
    sampleURL none none sampleQuery rfl
  exact h.1 (fun _ => rfl) (by decide)

/-- C5: when the round-tripper's Do returns an error, Exchange returns that
error itself — no wrapping or reclassification — and a nil response. -/
theorem exchange_do_error_passthrough (client : Client) (URL : String)
    (hq hr : Option (Bytes → Bytes)) (ctx : Context) (query : Query)
    (req : HTTPRequest) (m : Msg) (e : Err)
    (hok : (NewRequestWithHook ctx query URL hq).err = none)
    (hreq : (NewRequestWithHook ctx query URL hq).httpReq = some req)
    (hmsg : (NewRequestWithHook ctx query URL hq).queryMsg = some m)
    (hdo : client req = .error e) :
    (Exchange client URL hq hr ctx query).err = some e ∧
    (Exchange client URL hq hr ctx query).resp = none := by
  unfold Exchange
  dsimp only
  simp [hok, hreq, hmsg, hdo]

/-- C5 witness: a mocked transport error is passed through by identity. -/
theorem exchange_do_error_passthrough_witness :
    (Exchange failingClient sampleURL none none ctxLive sampleQuery).err
      = some (.transport 7) ∧
    (Exchange failingClient sampleURL none none ctxLive sampleQuery).resp
      = none :=
  exchange_do_error_passthrough failingClient sampleURL none none ctxLive
    sampleQuery sampleRequest sampleMsg (.transport 7)
    (by decide) (by decide) (by decide) rfl

/-- Request building is insensitive to which function the hook slot holds:
the hook only ever receives an independent copy, and nothing it returns is
used. -/
theorem newRequestWithHook_hook_irrelevant (ctx : Context) (query : Query)
    (URL : String) (f g : Bytes → Bytes) :
    NewRequestWithHook ctx query URL (some f)
      = NewRequestWithHook ctx query URL (some g) := rfl

/-- Response reading is insensitive to which function the hook slot holds. -/
theorem readResponseWithHook_hook_irrelevant (ctx : Context)
    (httpResp : HTTPResponse) (queryMsg : Msg) (f g : Bytes → Bytes) :
    ReadResponseWithHook ctx httpResp queryMsg (some f)
      = ReadResponseWithHook ctx httpResp queryMsg (some g) := rfl

/-- The snapshots response reading hands to its hook: none at all, or
exactly one — the bytes produced by the bounded copy. -/
theorem readResponseWithHook_hookCalls (ctx : Context) (httpResp : HTTPResponse)
    (queryMsg : Msg) (hook : Option (Bytes → Bytes)) :
    (ReadResponseWithHook ctx httpResp queryMsg hook).hookCalls = [] ∨
    ∃ bs, copyBody ctx httpResp.body QueryMaxResponseSizeTCP = .ok bs ∧
      (ReadResponseWithHook ctx httpResp queryMsg hook).hookCalls = [bs] := by
  unfold ReadResponseWithHook
  split
  · exact Or.inl rfl
  · split
    · exact Or.inl rfl
    · cases hc : copyBody ctx httpResp.body QueryMaxResponseSizeTCP with
      | error e => cases hctx : ctx.err <;> exact Or.inl rfl
      | ok raw =>
          cases hook with
          | none =>
              refine Or.inl ?_
              dsimp only
              repeat' first
              | rfl
              | split
          | some f =>
              refine Or.inr ⟨raw, rfl, ?_⟩
              dsimp only
              repeat' first
              | rfl
              | split

/-- What the bounded copy returns on success: the first
`QueryMaxResponseSizeTCP` bytes of the body. -/
theorem copyBody_ok (ctx : Context) (b : HTTPBody) (bs : Bytes)
    (h : copyBody ctx b QueryMaxResponseSizeTCP = .ok bs) :
    bs = b.bytes.take QueryMaxResponseSizeTCP := by
  unfold copyBody at h
  cases hctx : ctx.err with
  | some e => rw [hctx] at h; simp at h
  | none =>
      rw [hctx] at h
      dsimp only at h
      split at h
      · simp at h
      · exact (Except.ok.inj h).symm

/-- C6: whichever mutation the hooks perform on the buffers they receive,
request building, response reading and the whole exchange produce identical
results; on a successful serialization the request hook is invoked exactly
once with exactly the serialized query bytes (the request body), and on a
successful bounded read the response hook is invoked exactly once with
exactly the bytes handed to deserialization. -/
theorem observation_hook_noninterference (ctx : Context) (query : Query)
    (URL : String) (f g : Bytes → Bytes) :
    NewRequestWithHook ctx query URL (some f)
      = NewRequestWithHook ctx query URL (some g) ∧
    (∀ m raw, (shapeQuery query).NewMsg = .ok m → Msg.Pack m = .ok raw →
      (NewRequestWithHook ctx query URL (some f)).hookCalls = [raw] ∧
      ∀ r, (NewRequestWithHook ctx query URL (some f)).httpReq = some r →
        r.body = raw) ∧
    (∀ (httpResp : HTTPResponse) (queryMsg : Msg),
      ReadResponseWithHook ctx httpResp queryMsg (some f)
        = ReadResponseWithHook ctx httpResp queryMsg (some g)) ∧
    (∀ (httpResp : HTTPResponse) (queryMsg : Msg) (bs : Bytes),
      httpResp.statusCode = 200 →
      headerGet httpResp.headers "content-type" = "application/dns-message" →
      copyBody ctx httpResp.body QueryMaxResponseSizeTCP = .ok bs →
      (ReadResponseWithHook ctx httpResp queryMsg (some f)).hookCalls = [bs]) ∧
    (∀ (client : Client) (fr gr : Bytes → Bytes),
      Exchange client URL (some f) (some fr) ctx query
        = Exchange client URL (some g) (some gr) ctx query) := by
  refine ⟨newRequestWithHook_hook_irrelevant ctx query URL f g, ?_, ?_, ?_, ?_⟩
  · intro m raw hm hp
    unfold NewRequestWithHook
    rw [hm]
    dsimp only
    rw [hp]
    dsimp only
    constructor
    · split <;> rfl
    · intro r hr
      split at hr
      · simp at hr
      · exact congrArg HTTPRequest.body (Option.some.inj hr).symm
  · intro httpResp queryMsg
    exact readResponseWithHook_hook_irrelevant ctx httpResp queryMsg f g
  · intro httpResp queryMsg bs h200 hct hcopy
    unfold ReadResponseWithHook
    simp only [h200, hct]
    rw [if_neg (by simp), if_neg (by simp), hcopy]
    dsimp only
    repeat' first
    | rfl
    | split
  · intro client fr gr
    unfold Exchange
    rw [newRequestWithHook_hook_irrelevant ctx query URL f g]
    dsimp only
    cases hne : (NewRequestWithHook ctx query URL (some g)).err with
    | some e => rfl
    | none =>
        cases hreq : (NewRequestWithHook ctx query URL (some g)).httpReq with
        | none => rfl
        | some req =>
            cases hmsg : (NewRequestWithHook ctx query URL (some g)).queryMsg with
            | none => rfl
            | some m =>
                dsimp only
                cases hdo : client req with
                | error e => rfl
                | ok httpResp =>
                    dsimp only
                    rw [readResponseWithHook_hook_irrelevant ctx httpResp m fr gr]

/-- C6 witness: the byte-flipping hook of the package's tests yields the
same build result as the identity hook, and receives exactly the serialized
query bytes. -/
theorem observation_hook_noninterference_witness :
    NewRequestWithHook ctxLive sampleQuery sampleURL (some mutHook)
      = NewRequestWithHook ctxLive sampleQuery sampleURL (some idHook) ∧
    (NewRequestWithHook ctxLive sampleQuery sampleURL (some mutHook)).hookCalls
      = [sampleRawQuery] := by
  have h := observation_hook_noninterference ctxLive sampleQuery sampleURL
    mutHook idHook
  exact ⟨h.1, (h.2.1 sampleMsg sampleRawQuery (by decide) (by decide)).1⟩

/-- A small response body ending cleanly. -/
def smallBody : HTTPBody := { bytes := [1, 2, 3], readErr := none }

/-- C7: the bounded read delivers at most the TCP-class ceiling of bytes —
always the body's first `QueryMaxResponseSizeTCP` bytes — and never itself
fails because the body is larger: a body longer than the ceiling is passed
on truncated to exactly the ceiling; consequently every snapshot response
reading hands to its hook has length at most the ceiling. -/
theorem bounded_read_truncates (ctx : Context) (b : HTTPBody) :
    (∀ bs, copyBody ctx b QueryMaxResponseSizeTCP = .ok bs →
      bs = b.bytes.take QueryMaxResponseSizeTCP ∧
      bs.length ≤ QueryMaxResponseSizeTCP) ∧
    (ctx.err = none → b.bytes.length > QueryMaxResponseSizeTCP →
      copyBody ctx b QueryMaxResponseSizeTCP
        = .ok (b.bytes.take QueryMaxResponseSizeTCP)) ∧
    (∀ (httpResp : HTTPResponse) (queryMsg : Msg)
        (hook : Option (Bytes → Bytes)) (l : Bytes),
      l ∈ (ReadResponseWithHook ctx httpResp queryMsg hook).hookCalls →
      l.length ≤ QueryMaxResponseSizeTCP) := by
  refine ⟨?_, ?_, ?_⟩
  · intro bs hbs
    have hb := copyBody_ok ctx b bs hbs
    subst hb
    exact ⟨rfl, by simp [List.length_take]⟩
  · intro hctx hlen
    have hnl : ¬ b.bytes.length < QueryMaxResponseSizeTCP := by omega
    unfold copyBody
    rw [hctx]
    simp [hnl]
  · intro httpResp queryMsg hook l hl
    cases readResponseWithHook_hookCalls ctx httpResp queryMsg hook with
    | inl h => rw [h] at hl; simp at hl
    | inr h =>
        obtain ⟨bs, hc, hcalls⟩ := h
        rw [hcalls, List.mem_singleton] at hl
        have hb := copyBody_ok ctx httpResp.body bs hc
        rw [hl, hb]
        simp [List.length_take]

/-- C7 witness: a three-byte body is delivered whole, within the ceiling. -/
theorem bounded_read_truncates_witness :
    ([1, 2, 3] : Bytes) = smallBody.bytes.take QueryMaxResponseSizeTCP ∧
    ([1, 2, 3] : Bytes).length ≤ QueryMaxResponseSizeTCP := by
  have h := bounded_read_truncates ctxLive smallBody
  exact h.1 [1, 2, 3] (by decide)

end Dnsoverhttps
